import Mathlib

/-!
# Verification of `asana_overdue_flagger.py`

A shallow embedding of the repository's single source file
`src/asana_overdue_flagger.py` and proofs about it.

The embedding is stratified:

* a calendar/time model (day numbers, the two due-value parsers the script
  uses);
* the pure overdue predicate `subtask_is_overdue`;
* the HTTP access layer (`api_get`/`api_post`) run against a scripted list of
  responses, with its unbounded 429 retry loop;
* the pagination walker shared by `list_project_tasks` and
  `get_task_subtasks`, run against a scripted list of pages;
* the reconciliation engine (`find_or_create_tag`, the per-task body of
  `main`'s loop, and `main` itself) run against a `World` modelling the
  external task-tracking system's state (the Asana API of spec section 6 is
  not repository code, so its state-transition behaviour - what a task's tag
  list looks like after `addTag`/`removeTag` - is modelled from the spec's
  description of those endpoints).

Python's runtime clock is modelled by an explicit `Env`: an instant
`nowUtcSec` (seconds since the Unix epoch, UTC) together with the process's
local-timezone offset `tzOffsetMin` in minutes, since `date.today()` in the
source reads the *local* calendar date while `datetime.now(timezone.utc)`
reads the UTC instant.
-/

namespace AsanaOverdue

/-! ## Calendar arithmetic

Dates are compared through their day number (days since 1970-01-01,
Howard Hinnant's `days_from_civil`).  Python compares `date` objects
chronologically, which coincides with day-number order, so both the embedded
code and the spec-side definitions compare day numbers. -/

/-- Day number (days since 1970-01-01) of a civil date, floor-division form
of Hinnant's `days_from_civil`. -/
def daysFromCivil (y m d : Int) : Int :=
  let yy : Int := if m ≤ 2 then y - 1 else y
  let era : Int := Int.ediv yy 400
  let yoe : Int := yy - era * 400
  let doy : Int := Int.ediv (153 * (m + (if 2 < m then -3 else 9)) + 2) 5 + d - 1
  let doe : Int := yoe * 365 + Int.ediv yoe 4 - Int.ediv yoe 100 + doy
  era * 146097 + doe - 719468

/-- The process environment's clock: the current instant in seconds since
the Unix epoch (UTC) and the local timezone's UTC offset in minutes. -/
structure Env where
  nowUtcSec : Int
  tzOffsetMin : Int
  deriving Repr, DecidableEq

/-- Day number of the *local* calendar date, i.e. what Python's
`date.today()` returns in this environment. -/
def localDays (env : Env) : Int :=
  Int.ediv (env.nowUtcSec + env.tzOffsetMin * 60) 86400

/-- Day number of the UTC calendar date of the current instant.  Used only
by the spec-side predicate (the spec says calendar dates are compared
against today "evaluated in UTC"). -/
def utcDays (env : Env) : Int :=
  Int.ediv env.nowUtcSec 86400

/-! ## Parsing the due values -/

/-- Numeric value of a list of decimal digit characters. -/
def digitsToNat (l : List Char) : Nat :=
  l.foldl (fun a c => a * 10 + (c.toNat - 48)) 0

/-- Gregorian leap year. -/
def isLeap (y : Nat) : Bool :=
  y % 4 = 0 && (y % 100 ≠ 0 || y % 400 = 0)

/-- Number of days in a month (used by the date constructors' validation). -/
def daysInMonth (y m : Nat) : Nat :=
  if m = 2 then (if isLeap y then 29 else 28)
  else if m = 4 || m = 6 || m = 9 || m = 11 then 30
  else 31

/-- Split a character list at every `'-'` (the shape `%Y-%m-%d` imposes on
the input; a faithful, kernel-reducible replacement for scanning the
format string). -/
def splitOnDash : List Char → List (List Char)
  | [] => [[]]
  | '-' :: rest => [] :: splitOnDash rest
  | c :: rest =>
    match splitOnDash rest with
    | [] => [[c]]
    | g :: gs => (c :: g) :: gs

/-- Model of `datetime.strptime(s, "%Y-%m-%d").date()` as used on `due_on`
values: exactly four year digits, one or two month digits in 1..12, one or
two day digits valid for the month (`datetime.date` validation), the whole
string consumed; `none` models the `ValueError` path. -/
def parseDateYMD (s : String) : Option (Nat × Nat × Nat) :=
  match splitOnDash s.toList with
  | [yl, ml, dl] =>
    if yl.length = 4 && yl.all Char.isDigit
        && (ml.length = 1 || ml.length = 2) && ml.all Char.isDigit
        && (dl.length = 1 || dl.length = 2) && dl.all Char.isDigit then
      let y := digitsToNat yl
      let m := digitsToNat ml
      let d := digitsToNat dl
      if 1 ≤ y && 1 ≤ m && m ≤ 12 && 1 ≤ d && d ≤ daysInMonth y m then
        some (y, m, d)
      else none
    else none
  | _ => none

/-- Grab exactly `n` leading digit characters. -/
def grabDigits (n : Nat) (cs : List Char) : Option (Nat × List Char) :=
  let pre := cs.take n
  if pre.length = n && pre.all Char.isDigit then
    some (digitsToNat pre, cs.drop n)
  else none

/-- Parse the UTC-offset tail of an ISO-8601 timestamp: empty (naive, which
`parse_iso_datetime` then treats as UTC), `Z`/`z`, or `±HH`, `±HHMM`,
`±HH:MM`.  Returns the offset in seconds. -/
def parseIsoOffset (cs : List Char) : Option Int :=
  match cs with
  | [] => some 0
  | ['Z'] => some 0
  | ['z'] => some 0
  | c :: rest =>
    if c = '+' || c = '-' then
      match grabDigits 2 rest with
      | none => none
      | some (hh, rest₂) =>
        if hh ≤ 23 then
          let sign : Int := if c = '-' then -1 else 1
          match rest₂ with
          | [] => some (sign * (hh * 3600))
          | ':' :: rest₃ =>
            match grabDigits 2 rest₃ with
            | some (mm, []) =>
              if mm ≤ 59 then some (sign * (hh * 3600 + mm * 60)) else none
            | _ => none
          | _ =>
            match grabDigits 2 rest₂ with
            | some (mm, []) =>
              if mm ≤ 59 then some (sign * (hh * 3600 + mm * 60)) else none
            | _ => none
        else none
    else none

/-- Drop a fractional-seconds field (`.` followed by at least one digit). -/
def dropFraction (cs : List Char) : Option (List Char) :=
  match cs with
  | '.' :: rest =>
    let frac := rest.takeWhile Char.isDigit
    if frac.isEmpty then none else some (rest.dropWhile Char.isDigit)
  | _ => some cs

/-- Finish a time component: optional fraction (truncated - the model's
clock is whole seconds), then the offset tail. -/
def finishTime (secs : Nat) (rest : List Char) : Option (Nat × Int) :=
  match dropFraction rest with
  | none => none
  | some r => (parseIsoOffset r).map (fun off => (secs, off))

/-- Parse an ISO-8601 time of day, extended (`HH[:MM[:SS]]`) or basic
(`HH[MM[SS]]`) format, with optional fraction and offset tail.  Returns
(seconds into the day, offset seconds). -/
def parseTimeFrom (cs : List Char) : Option (Nat × Int) :=
  match grabDigits 2 cs with
  | none => none
  | some (hh, rest) =>
    if hh ≥ 24 then none
    else
      match rest with
      | [] => finishTime (hh * 3600) []
      | ':' :: r₂ =>
        match grabDigits 2 r₂ with
        | none => none
        | some (mm, r₃) =>
          if mm ≥ 60 then none
          else
            match r₃ with
            | ':' :: r₄ =>
              match grabDigits 2 r₄ with
              | none => none
              | some (ss, r₅) =>
                if ss ≥ 60 then none
                else finishTime (hh * 3600 + mm * 60 + ss) r₅
            | _ => finishTime (hh * 3600 + mm * 60) r₃
      | c :: _ =>
        if c.isDigit then
          match grabDigits 2 rest with
          | none => none
          | some (mm, r₃) =>
            if mm ≥ 60 then none
            else
              match r₃ with
              | c₂ :: _ =>
                if c₂.isDigit then
                  match grabDigits 2 r₃ with
                  | none => none
                  | some (ss, r₅) =>
                    if ss ≥ 60 then none
                    else finishTime (hh * 3600 + mm * 60 + ss) r₅
                else finishTime (hh * 3600 + mm * 60) r₃
              | [] => finishTime (hh * 3600 + mm * 60) []
        else finishTime (hh * 3600) rest

/-- Rest of an ISO-8601 datetime after a complete calendar date: end of
input, or `T` followed by a time.  Returns UTC seconds (a naive result is
indistinguishable here because the source's isoparse branch immediately
coerces naive to UTC, which is what the `[] => some 0` offset case
encodes). -/
def isoDateTimeTail (y m d : Nat) (r : List Char) : Option Int :=
  let base : Int := daysFromCivil y m d * 86400
  match r with
  | [] => some base
  | 'T' :: r₂ => (parseTimeFrom r₂).map (fun p => base + p.1 - p.2)
  | _ => none

/-- Model of `dateutil.parser.isoparse` composed with the source's
naive-to-UTC coercion: ISO-8601 dates in extended, reduced-precision or
basic form (`YYYY`, `YYYY-MM`, `YYYY-MM-DD`, `YYYYMMDD`; `YYYYMM` is
rejected as in ISO-8601), optionally followed by `T` and a time with
optional fraction and offset.  Returns UTC seconds since the epoch. -/
def isoparseModel (s : String) : Option Int :=
  match grabDigits 4 s.toList with
  | none => none
  | some (y, r₁) =>
    if y < 1 then none
    else
      match r₁ with
      | [] => some (daysFromCivil y 1 1 * 86400)
      | '-' :: r₂ =>
        match grabDigits 2 r₂ with
        | none => none
        | some (m, r₃) =>
          if m < 1 || 12 < m then none
          else
            match r₃ with
            | [] => some (daysFromCivil y m 1 * 86400)
            | '-' :: r₄ =>
              match grabDigits 2 r₄ with
              | none => none
              | some (d, r₅) =>
                if d < 1 || daysInMonth y m < d then none
                else isoDateTimeTail y m d r₅
            | _ => none
      | c :: _ =>
        if c.isDigit then
          match grabDigits 4 r₁ with
          | none => none
          | some (md, r₅) =>
            let m := md / 100
            let d := md % 100
            if m < 1 || 12 < m || d < 1 || daysInMonth y m < d then none
            else isoDateTimeTail y m d r₅
        else none

/-- Split a character list at every occurrence of a separator. -/
def splitOnChar (sep : Char) : List Char → List (List Char)
  | [] => [[]]
  | c :: rest =>
    if c = sep then [] :: splitOnChar sep rest
    else
      match splitOnChar sep rest with
      | [] => [[c]]
      | g :: gs => (c :: g) :: gs

/-- Model of the `dateparser.parse(s)` fallback (source line 128).  The
real `dateutil.parser.parse` accepts many free-form date strings -
`"01/05/2024"`, `"Jan 5 2024"`, ... - and, for a string carrying no
explicit offset, returns a **naive** `datetime`.  The model covers the
slash-date profile `M/D/YYYY` (dateutil's default month-first reading),
which suffices to decide every behaviour the claims reach: any fallback
success is naive, and the naive result is what matters downstream (see
`dueAtCheckE`).  Strings outside the modelled profile are treated as the
`return None` path. -/
def fallbackParseModel (s : String) : Option Int :=
  match splitOnChar '/' s.toList with
  | [ml, dl, yl] =>
    if (ml.length = 1 || ml.length = 2) && ml.all Char.isDigit
        && (dl.length = 1 || dl.length = 2) && dl.all Char.isDigit
        && yl.length = 4 && yl.all Char.isDigit then
      let m := digitsToNat ml
      let d := digitsToNat dl
      let y := digitsToNat yl
      if 1 ≤ y && 1 ≤ m && m ≤ 12 && 1 ≤ d && d ≤ daysInMonth y m then
        some (daysFromCivil y m d * 86400)
      else none
    else none
  | _ => none

/-- A Python `datetime` value as far as the script can observe it: whether
it carries timezone info (`aware`) and its wall-clock position in seconds
since the epoch (for a naive value, the wall-clock reading itself). -/
structure PyDateTime where
  aware : Bool
  seconds : Int
  deriving Repr, DecidableEq

/-- Model of the source's `parse_iso_datetime` (lines 117-130) on `due_at`
values.  The `isoparse` branch coerces a missing tzinfo to UTC, so its
successes are always aware; the `except` fallback to `dateparser.parse`
performs **no** such coercion, so its successes (modelled on the
slash-date profile; the real library accepts more formats, likewise naive
without an explicit offset) stay naive.  `none` models `return None`. -/
def parse_iso_datetime (s : String) : Option PyDateTime :=
  if s = "" then none
  else
    match isoparseModel s with
    | some t => some ⟨true, t⟩
    | none =>
      match fallbackParseModel s with
      | some t => some ⟨false, t⟩
      | none => none

/-! ## The overdue predicate

`subtask_is_overdue(subtask)` from the source, lines 132-149.  Record
fields use Python truthiness: a missing (`None`) or empty-string due value
is falsy. -/

/-- A subtask record as returned by `GET /tasks/{id}/subtasks` with
`opt_fields=gid,name,due_on,due_at,completed`. -/
structure SubtaskRec where
  completed : Bool
  due_on : Option String
  due_at : Option String
  deriving Repr, DecidableEq

/-- A Python-level error the script can raise and not catch: `HTTPError`
from `raise_for_status`, `ValueError` from `int()` on a non-numeric
string or from `time.sleep` on a negative duration, or `TypeError` from
comparing a naive `datetime` with the aware `datetime.now(timezone.utc)`. -/
inductive PyErr where
  | httpError (status : Nat)
  | valueError
  | typeError
  deriving Repr, DecidableEq

/-- The `due_at` leg of `subtask_is_overdue`, faithfully: parse with
`parse_iso_datetime` and, when a datetime comes back, evaluate
`dt < datetime.now(timezone.utc)`.  That comparison **raises `TypeError`**
when `dt` is naive - which happens exactly on the `dateparser.parse`
fallback path, where the source forgot the naive-to-UTC coercion it
performs on the isoparse path.  A falsy or unparseable value falls
through to `return False`. -/
def dueAtCheckE (env : Env) (st : SubtaskRec) : Except PyErr Bool :=
  match st.due_at with
  | none => .ok false
  | some s =>
    if s = "" then .ok false
    else
      match parse_iso_datetime s with
      | none => .ok false
      | some dt =>
        if dt.aware then .ok (decide (dt.seconds < env.nowUtcSec))
        else .error .typeError

/-- The `due_at` leg as the engine-level model consumes it: the total
restriction of `dueAtCheckE`, returning `false` where the program would
raise `TypeError` (that crash is settled separately, by
`subtask_is_overdue_py` and claim C6; `dueAtCheckE_ok` states the
agreement on every non-crashing input). -/
def dueAtCheck (env : Env) (st : SubtaskRec) : Bool :=
  match st.due_at with
  | none => false
  | some s =>
    if s = "" then false
    else
      match parse_iso_datetime s with
      | none => false
      | some dt =>
        if dt.aware then decide (dt.seconds < env.nowUtcSec) else false

/-- The predicate `subtask_is_overdue` (source lines 132-149): a completed record is never
overdue; otherwise a truthy `due_on` that `strptime` parses is compared
strictly against `date.today()` (the *local* calendar date); on parse
failure (`except: pass`) or a falsy `due_on`, a truthy `due_at` is parsed
and compared strictly against the current UTC instant; otherwise `False`. -/
def subtask_is_overdue (env : Env) (st : SubtaskRec) : Bool :=
  if st.completed then false
  else
    match st.due_on with
    | none => dueAtCheck env st
    | some s =>
      if s = "" then dueAtCheck env st
      else
        match parseDateYMD s with
        | some ymd =>
          decide (daysFromCivil ymd.1 ymd.2.1 ymd.2.2 < localDays env)
        | none => dueAtCheck env st

/-- Modelled from the spec (section 4.3): the Overdue Predicate with
calendar dates compared against today's calendar date "evaluated in UTC".
Identical to `subtask_is_overdue` except that the calendar comparison uses
the UTC day instead of the local day.  Used only to contrast the spec's
words with the source's `date.today()`. -/
def overdue_spec_utc (env : Env) (st : SubtaskRec) : Bool :=
  if st.completed then false
  else
    match st.due_on with
    | none => dueAtCheck env st
    | some s =>
      if s = "" then dueAtCheck env st
      else
        match parseDateYMD s with
        | some ymd =>
          decide (daysFromCivil ymd.1 ymd.2.1 ymd.2.2 < utcDays env)
        | none => dueAtCheck env st

/-- The predicate `subtask_is_overdue` with its raise behaviour kept: the
same control flow as `subtask_is_overdue`, but the `due_at` leg goes
through `dueAtCheckE`, so a fallback-parsed naive datetime raises the
`TypeError` the real comparison raises - uncaught, since the only
`except` in the function guards `strptime` on the `due_on` leg.  This is
the faithful view the C6 verdict rests on. -/
def subtask_is_overdue_py (env : Env) (st : SubtaskRec) : Except PyErr Bool :=
  if st.completed then .ok false
  else
    match st.due_on with
    | none => dueAtCheckE env st
    | some s =>
      if s = "" then dueAtCheckE env st
      else
        match parseDateYMD s with
        | some ymd =>
          .ok (decide (daysFromCivil ymd.1 ymd.2.1 ymd.2.2 < localDays env))
        | none => dueAtCheckE env st

/-! ## The HTTP access layer (`api_get` / `api_post`, source lines 18-38)

Both functions are the same loop: issue the request; on status 429, parse
the `Retry-After` header with `int(...)` (defaulting the *string* to `"5"`
when the header is absent), sleep that long, and retry; otherwise
`raise_for_status()` (raises for status >= 400) and return the body.

The loop is run against a script: the list of responses the network would
return for the successive attempts.  Each recursive step consumes one
scripted response, so the unbounded `while True` becomes structural
recursion; an exhausted script (`none`) represents the run that is still
retrying - the documented potentially-unbounded blocking. -/

/-- One scripted HTTP response: status code, the optional `Retry-After`
header value, and the parsed JSON body the caller would receive. -/
structure HttpResponse (α : Type) where
  status : Nat
  retryAfter : Option String
  body : α
  deriving Repr, DecidableEq

/-- Model of Python's `int(s)` on a decimal string: optional surrounding
ASCII whitespace, optional sign, then at least one digit with single
underscores allowed between digits. -/
def pyInt (s : String) : Option Int :=
  let cs := (s.toList.dropWhile Char.isWhitespace).reverse
  let cs := (cs.dropWhile Char.isWhitespace).reverse
  let (sign, ds) : Int × List Char :=
    match cs with
    | '+' :: rest => (1, rest)
    | '-' :: rest => (-1, rest)
    | _ => (1, cs)
  let okBody : Bool :=
    !ds.isEmpty && ds.all (fun c => c.isDigit || c = '_')
      && ds.head? ≠ some '_' && ds.getLast? ≠ some '_'
      && (ds.zip (ds.drop 1)).all (fun p => !(p.1 = '_' && p.2 = '_'))
  if okBody then some (sign * (digitsToNat (ds.filter Char.isDigit) : Int))
  else none

/-- The sleep duration a 429 response induces:
`int(r.headers.get("Retry-After", "5"))`, then `time.sleep` on it.  `none`
models the raised `ValueError` (non-numeric header, or negative sleep). -/
def retrySleep (r : HttpResponse α) : Option Int :=
  match pyInt (r.retryAfter.getD "5") with
  | none => none
  | some n => if n < 0 then none else some n

/-- The retry loop shared by `api_get`/`api_post`/`api_delete`, run against
a scripted response list.  Returns `none` when the script is exhausted with
the loop still retrying (the unbounded-blocking case); otherwise the list
of sleeps performed and either the successful body or the raised error. -/
def api_request (script : List (HttpResponse α)) :
    Option (List Int × Except PyErr α) :=
  match script with
  | [] => none
  | r :: rest =>
    if r.status = 429 then
      match retrySleep r with
      | none => some ([], .error .valueError)
      | some n => (api_request rest).map (fun p => (n :: p.1, p.2))
    else if 400 ≤ r.status then some ([], .error (.httpError r.status))
    else some ([], .ok r.body)

/-! ## The pagination walker (source lines 81-94 and 102-115)

`list_project_tasks` and `get_task_subtasks` are textually the same loop:
fetch `url` with `params`, extend the accumulator with `res["data"]`, and
if `res["next_page"]` is present with a truthy `"uri"`, continue from that
URI with `params = None`, else stop.  The loop is run against the script of
pages the endpoint would serve. -/

/-- One page of a paged listing: the `data` batch and the `next_page`
field, which may be absent (`none`), present without a `uri`
(`some none`), or present with a next-page URL (`some (some u)`). -/
structure Page (α : Type) where
  data : List α
  next_page : Option (Option String)
  deriving Repr, DecidableEq

/-- The query parameters of a request, as sent (`none` models Python's
`params=None`). -/
abbrev Params := List (String × String)

/-- The shared pagination loop, run against a scripted page list.  Returns
the requests issued (URL and params of each) and the accumulated records;
`none` when the script is exhausted while the loop still wants a next
page. -/
def walkPages (script : List (Page α)) (url : String) (params : Option Params) :
    Option (List (String × Option Params) × List α) :=
  match script with
  | [] => none
  | p :: rest =>
    match p.next_page with
    | some (some u) =>
      (walkPages rest u none).map
        (fun r => ((url, params) :: r.1, p.data ++ r.2))
    | _ => some ([(url, params)], p.data)

/-- The constant `ASANA_BASE` from the source. -/
def ASANA_BASE : String := "https://app.asana.com/api/1.0"

/-- The query parameters `list_project_tasks` sends on its first request. -/
def taskListParams : Params :=
  [("limit", "100"), ("opt_fields", "gid,name,completed,tags,name")]

/-- Model of `list_project_tasks` (source lines 81-94) against a scripted page
list. -/
def list_project_tasks (project_gid : String) (script : List (Page α)) :
    Option (List (String × Option Params) × List α) :=
  walkPages script (ASANA_BASE ++ "/projects/" ++ project_gid ++ "/tasks")
    (some taskListParams)

/-- The query parameters `get_task_subtasks` sends on its first request. -/
def subtaskListParams : Params :=
  [("opt_fields", "gid,name,due_on,due_at,completed"), ("limit", "100")]

/-- Model of `get_task_subtasks` (source lines 102-115) against a scripted page
list. -/
def get_task_subtasks (task_gid : String) (script : List (Page α)) :
    Option (List (String × Option Params) × List α) :=
  walkPages script (ASANA_BASE ++ "/tasks/" ++ task_gid ++ "/subtasks")
    (some subtaskListParams)

/-- The next-page URI recorded in a page (`""` when there is none); used to
state which URLs the walker's follow-up requests hit. -/
def nextUri (p : Page α) : String :=
  match p.next_page with
  | some (some u) => u
  | _ => ""

/-! ## The reconciliation engine (source lines 56-79 and 175-221)

The engine is run against a `World`: the external task-tracking system's
state as far as the script reads or writes it.  The listing endpoints are
held as the fully materialized lists the pagination walker produces (the
walker itself, including the first-page-only parameters, is the
`walkPages` model above).  The engine's reads can fail with the
`raise_for_status` error of the access layer; the 429 case never reaches
this level, being absorbed by `api_request`'s retry loop, so `PyErr` here
is always a non-429 failure. -/

/-- A tag object as Asana returns it (`gid`, `name`). -/
structure TagObj where
  gid : String
  name : String
  deriving Repr, DecidableEq

/-- A task record from the project listing.  `main` reads only `gid` and
`name` (the fetch requests `opt_fields=gid,name,completed,tags,name`);
the task's own `completed`/`due_on`/`due_at` attributes nevertheless exist
on the external record and are carried here so that the spec's desired
state, which mentions the task's own due value, can be stated. -/
structure TaskRec where
  gid : String
  name : String
  completed : Bool
  due_on : Option String
  due_at : Option String
  deriving Repr, DecidableEq

/-- A mutating call that reached the transport layer. -/
inductive Effect where
  | createTag (name workspace : String)
  | addTag (taskGid tagGid : String)
  | removeTag (taskGid tagGid : String)
  | addComment (taskGid text : String)
  deriving Repr, DecidableEq

/-- A line the engine prints (date interpolations elided). -/
inductive LogEvent where
  | creatingTag (name : String)
  | dryCreateTag (name : String)
  | dryTagNotCreated
  | markAnnounce (taskGid : String)
  | clearAnnounce (taskGid : String)
  | dryAddTag (taskGid tagGid : String)
  | dryRemoveTag (taskGid tagGid : String)
  | dryAddComment (taskGid : String)
  deriving Repr, DecidableEq

/-- The external system's state, as the engine can observe and mutate it.
`subtasksOf` and `tagsOf` are per-task GET results (an `Except` models the
access layer surfacing a non-429 HTTP failure for that read).
`freshTagGid` is the gid the system would assign to a newly created tag. -/
structure World where
  workspaceGid : String
  wsTags : List TagObj
  freshTagGid : String
  tasks : List TaskRec
  subtasksOf : String → Except PyErr (List SubtaskRec)
  tagsOf : String → Except PyErr (List TagObj)

/-- Python's `{t["name"]: t["gid"] for t in tags}` membership test
(`tag_name in current_tags`). -/
def dictContains (tags : List TagObj) (k : String) : Bool :=
  tags.any (fun t => t.name == k)

/-- Python's `current_tags[tag_name]` on the comprehension-built dict:
with duplicate names the later entry wins. -/
def dictGet (tags : List TagObj) (k : String) : String :=
  (((tags.filter (fun t => t.name == k)).getLast?).map (fun t => t.gid)).getD ""

/-- The name of the tag object with a given gid, as the workspace's tag
registry records it (modelled from the spec, section 6: `addTag` attaches
the tag *object*, so a later `GET /tasks/{id}` shows that object's name). -/
def tagNameLookup (w : World) (g : String) : String :=
  (((w.wsTags.find? (fun t => t.gid == g))).map (fun t => t.name)).getD ""

/-- State transition of `POST /tasks/{task}/addTag` (modelled from the
spec, section 6): the tag object joins the task's tag list. -/
def applyAddTag (w : World) (taskGid tagGid : String) : World :=
  { w with
    tagsOf := fun g =>
      if g == taskGid then
        (w.tagsOf g).map (fun l => l ++ [⟨tagGid, tagNameLookup w tagGid⟩])
      else w.tagsOf g }

/-- State transition of `POST /tasks/{task}/removeTag` (modelled from the
spec, section 6): the tag object leaves the task's tag list. -/
def applyRemoveTag (w : World) (taskGid tagGid : String) : World :=
  { w with
    tagsOf := fun g =>
      if g == taskGid then
        (w.tagsOf g).map (fun l => l.filter (fun t => !(t.gid == tagGid)))
      else w.tagsOf g }

/-- Output of a mutating helper: effects that reached the transport, lines
printed, resulting external state. -/
structure MutOut where
  effects : List Effect
  logs : List LogEvent
  world : World

/-- Model of `add_tag_to_task` (source lines 151-157): a no-op that only logs under
dry-run, otherwise a `POST .../addTag`. -/
def add_tag_to_task (dry : Bool) (w : World) (task_gid tag_gid : String) : MutOut :=
  if dry then ⟨[], [.dryAddTag task_gid tag_gid], w⟩
  else ⟨[.addTag task_gid tag_gid], [], applyAddTag w task_gid tag_gid⟩

/-- Model of `remove_tag_from_task` (source lines 159-165). -/
def remove_tag_from_task (dry : Bool) (w : World) (task_gid tag_gid : String) : MutOut :=
  if dry then ⟨[], [.dryRemoveTag task_gid tag_gid], w⟩
  else ⟨[.removeTag task_gid tag_gid], [], applyRemoveTag w task_gid tag_gid⟩

/-- Model of `add_comment` (source lines 167-173).  Comments are write-only: nothing
the engine later reads depends on them, so the world is unchanged beyond
the recorded effect. -/
def add_comment (dry : Bool) (w : World) (task_gid text : String) : MutOut :=
  if dry then ⟨[], [.dryAddComment task_gid], w⟩
  else ⟨[.addComment task_gid text], [], w⟩

/-- Output of `find_or_create_tag`: the gid handed back (`None` exactly in
the dry-run create path), plus effects/logs/state. -/
structure FcOut where
  tagGid : Option String
  effects : List Effect
  logs : List LogEvent
  world : World

/-- Model of `find_or_create_tag` (source lines 56-79): walk the workspace's tags
looking for `tag_name` (the pagination of that walk is the `walkPages`
model; searching the materialized listing with `find?` has the same
short-circuit result); when absent, create it - except under dry-run,
where the creation is logged and `None` returned. -/
def find_or_create_tag (dry : Bool) (w : World) (tag_name : String) : FcOut :=
  match w.wsTags.find? (fun t => t.name == tag_name) with
  | some t => ⟨some t.gid, [], [], w⟩
  | none =>
    if dry then ⟨none, [], [.creatingTag tag_name, .dryCreateTag tag_name], w⟩
    else
      ⟨some w.freshTagGid, [.createTag tag_name w.workspaceGid],
        [.creatingTag tag_name],
        { w with wsTags := w.wsTags ++ [⟨w.freshTagGid, tag_name⟩] }⟩

/-- Output of a run (or of one loop iteration): the `changed` counter,
transport effects, printed lines, resulting external state. -/
structure RunOut where
  changed : Nat
  effects : List Effect
  logs : List LogEvent
  world : World

/-- The comment text posted when marking (date interpolation elided). -/
def overdueCommentText : String := "One or more subtasks are overdue"

/-- The comment text posted when clearing (date interpolation elided). -/
def resolvedCommentText : String := "Overdue subtasks resolved"

/-- The body of `main`'s per-task loop (source lines 187-216): fetch the
subtasks, skip the task entirely when there are none, compute
`overdue_found` over the subtasks, read the task's tags, and converge tag
state, guarding the tag mutations by `if tag_gid:` (Python truthiness, so
`None` or `""` skips them) while the comment and the `changed` increment
are unconditional in both mutation branches. -/
def processTask (dry : Bool) (env : Env) (tag_name : String)
    (tag_gid : Option String) (w : World) (t : TaskRec) :
    Except PyErr RunOut :=
  match w.subtasksOf t.gid with
  | .error e => .error e
  | .ok subtasks =>
    if subtasks.isEmpty then .ok ⟨0, [], [], w⟩
    else
      let overdue_found := subtasks.any (subtask_is_overdue env)
      match w.tagsOf t.gid with
      | .error e => .error e
      | .ok current_tags =>
        let has_tag := dictContains current_tags tag_name
        if overdue_found && !has_tag then
          let step : MutOut :=
            match tag_gid.filter (fun g => g != "") with
            | some g => add_tag_to_task dry w t.gid g
            | none => ⟨[], [], w⟩
          let com := add_comment dry step.world t.gid overdueCommentText
          .ok ⟨1, step.effects ++ com.effects,
            .markAnnounce t.gid :: (step.logs ++ com.logs), com.world⟩
        else if !overdue_found && has_tag then
          let step : MutOut :=
            match tag_gid.filter (fun g => g != "") with
            | some _ =>
              remove_tag_from_task dry w t.gid (dictGet current_tags tag_name)
            | none => ⟨[], [], w⟩
          let com := add_comment dry step.world t.gid resolvedCommentText
          .ok ⟨1, step.effects ++ com.effects,
            .clearAnnounce t.gid :: (step.logs ++ com.logs), com.world⟩
        else .ok ⟨0, [], [], w⟩

/-- Model of `main`'s `for t in tasks:` loop, folded over the listing; the first
`raise` aborts the whole fold. -/
def runTasks (dry : Bool) (env : Env) (tag_name : String)
    (tag_gid : Option String) : World → List TaskRec → Except PyErr RunOut
  | w, [] => .ok ⟨0, [], [], w⟩
  | w, t :: ts =>
    match processTask dry env tag_name tag_gid w t with
    | .error e => .error e
    | .ok o =>
      match runTasks dry env tag_name tag_gid o.world ts with
      | .error e => .error e
      | .ok o₂ =>
        .ok ⟨o.changed + o₂.changed, o.effects ++ o₂.effects,
          o.logs ++ o₂.logs, o₂.world⟩

/-- The part of `main` after `find_or_create_tag` has produced `f`: list
the project's tasks, converge each, and report the `changed` count. -/
def runMainWith (dry : Bool) (env : Env) (f : FcOut) : Except PyErr RunOut :=
  match runTasks dry env "Overdue" f.tagGid f.world f.world.tasks with
  | .error e => .error e
  | .ok o =>
    .ok ⟨o.changed, f.effects ++ o.effects,
      (f.logs ++ (if f.tagGid.isNone && dry then [.dryTagNotCreated] else []))
        ++ o.logs, o.world⟩

/-- Model of `main` (source lines 175-221): find or create the `"Overdue"` tag, list
the project's tasks, converge each, and report the `changed` count. -/
def runMain (dry : Bool) (env : Env) (w : World) : Except PyErr RunOut :=
  runMainWith dry env (find_or_create_tag dry w "Overdue")

/-! ### Derived notions used by the claims -/

/-- Modelled from the spec (sections 3 and 4.5): the desired overdue state
of a task - its own due value strictly in the past with the task not
completed, or some subtask overdue.  The spec composes both legs from the
same Overdue Predicate, so the task's own fields go through it too. -/
def desiredSpecOverdue (env : Env) (t : TaskRec) (subs : List SubtaskRec) : Bool :=
  subtask_is_overdue env ⟨t.completed, t.due_on, t.due_at⟩
    || subs.any (subtask_is_overdue env)

/-- Whether the engine would treat this task as needing a transition: a
nonempty subtask list whose aggregated overdue state differs from the
`"Overdue"`-tag presence on the task. -/
def requiresTransition (env : Env) (w : World) (t : TaskRec) : Bool :=
  match w.subtasksOf t.gid with
  | .error _ => false
  | .ok subs =>
    if subs.isEmpty then false
    else
      match w.tagsOf t.gid with
      | .error _ => false
      | .ok tags =>
        subs.any (subtask_is_overdue env) != dictContains tags "Overdue"

/-- Whether a log line announces an intended mark/clear transition. -/
def LogEvent.isAnnounce : LogEvent → Bool
  | .markAnnounce _ => true
  | .clearAnnounce _ => true
  | _ => false

/-- The `changed` counter of a finished run (0 for an aborted one). -/
def runChanged : Except PyErr RunOut → Nat
  | .ok o => o.changed
  | .error _ => 0

/-- The transport-level mutations of a finished run ([] for an aborted
one). -/
def runEffects : Except PyErr RunOut → List Effect
  | .ok o => o.effects
  | .error _ => []

/-- The log lines of a finished run ([] for an aborted one). -/
def runLogs : Except PyErr RunOut → List LogEvent
  | .ok o => o.logs
  | .error _ => []

/-- The resulting external state of a finished run (the supplied default
for an aborted one). -/
def runWorldD (d : World) : Except PyErr RunOut → World
  | .ok o => o.world
  | .error _ => d

/-! ## Helper lemmas -/

/-- The empty string is not a `%Y-%m-%d` date. -/
theorem parseDateYMD_empty : parseDateYMD "" = none := rfl

/-- A truthy, parseable `due_on` decides `subtask_is_overdue` by the
calendar comparison against the local day. -/
theorem subtask_is_overdue_of_parse (env : Env) (st : SubtaskRec) (s : String)
    (y m d : Nat) (hc : st.completed = false) (ho : st.due_on = some s)
    (hp : parseDateYMD s = some (y, m, d)) :
    subtask_is_overdue env st
      = decide (daysFromCivil y m d < localDays env) := by
  have hs : s ≠ "" := by
    intro hs
    rw [hs, parseDateYMD_empty] at hp
    exact Option.noConfusion hp
  simp only [subtask_is_overdue, hc, ho, Bool.false_eq_true, if_false,
    if_neg hs, hp]

/-- On every input where the faithful `due_at` leg does not raise, the
engine-level total leg computes the same value. -/
theorem dueAtCheckE_ok (env : Env) (st : SubtaskRec) (b : Bool)
    (h : dueAtCheckE env st = .ok b) : dueAtCheck env st = b := by
  cases hda : st.due_at with
  | none =>
    simp [dueAtCheckE, hda] at h
    simp [dueAtCheck, hda, ← h]
  | some s =>
    by_cases hs : s = ""
    · simp [dueAtCheckE, hda, hs] at h
      simp [dueAtCheck, hda, hs, ← h]
    · cases hp : parse_iso_datetime s with
      | none =>
        simp [dueAtCheckE, hda, hs, hp] at h
        simp [dueAtCheck, hda, hs, hp, ← h]
      | some dt =>
        cases haw : dt.aware with
        | true =>
          simp [dueAtCheckE, hda, hs, hp, haw] at h
          simp [dueAtCheck, hda, hs, hp, haw, ← h]
        | false => simp [dueAtCheckE, hda, hs, hp, haw] at h

/-- On every record where the faithful predicate does not raise, the
engine's total predicate computes the same value: `subtask_is_overdue` is
the non-crashing restriction of `subtask_is_overdue_py`. -/
theorem subtask_is_overdue_py_ok (env : Env) (st : SubtaskRec) (b : Bool)
    (h : subtask_is_overdue_py env st = .ok b) :
    subtask_is_overdue env st = b := by
  cases hc : st.completed with
  | true =>
    simp [subtask_is_overdue_py, hc] at h
    simp [subtask_is_overdue, hc, ← h]
  | false =>
    cases hdo : st.due_on with
    | none =>
      simp only [subtask_is_overdue_py, hc, hdo, Bool.false_eq_true,
        if_false] at h
      simp only [subtask_is_overdue, hc, hdo, Bool.false_eq_true, if_false]
      exact dueAtCheckE_ok env st b h
    | some s =>
      by_cases hs : s = ""
      · simp only [subtask_is_overdue_py, hc, hdo, Bool.false_eq_true,
          if_false, if_pos hs] at h
        simp only [subtask_is_overdue, hc, hdo, Bool.false_eq_true, if_false,
          if_pos hs]
        exact dueAtCheckE_ok env st b h
      · cases hp : parseDateYMD s with
        | none =>
          simp only [subtask_is_overdue_py, hc, hdo, Bool.false_eq_true,
            if_false, if_neg hs, hp] at h
          simp only [subtask_is_overdue, hc, hdo, Bool.false_eq_true,
            if_false, if_neg hs, hp]
          exact dueAtCheckE_ok env st b h
        | some ymd =>
          simp only [subtask_is_overdue_py, hc, hdo, Bool.false_eq_true,
            if_false, if_neg hs, hp, Except.ok.injEq] at h
          simp only [subtask_is_overdue, hc, hdo, Bool.false_eq_true,
            if_false, if_neg hs, hp, h]

end AsanaOverdue

namespace AsanaOverdue

/-! ## The claims -/

/-- Claim **C8.** For every record with the completion flag set to true, the
overdue predicate returns false unconditionally, regardless of the due
value (present, past, malformed, or absent). -/
theorem C8_completed_never_overdue (env : Env) (st : SubtaskRec)
    (h : st.completed = true) : subtask_is_overdue env st = false := by
  simp [subtask_is_overdue, h]

/-- Witness for C8: a completed record with a long-past due date is not
overdue. -/
theorem C8_witness :
    subtask_is_overdue ⟨86400 * 20000, 0⟩ ⟨true, some "2000-01-01", none⟩
      = false :=
  C8_completed_never_overdue ⟨86400 * 20000, 0⟩ ⟨true, some "2000-01-01", none⟩ rfl

/-- Claim **C6**, code bug.  The claim - and the spec's error-handling
design - says a malformed/unparseable due value never crashes the
evaluation: the record is treated as not overdue and the run continues.
The code violates this: for a malformed `due_at` that `isoparse` rejects
but the `dateparser.parse` fallback accepts (here `"01/05/2024"`), the
fallback returns a **naive** datetime - the naive-to-UTC coercion is
applied only on the isoparse branch - and the uncaught comparison
`dt < datetime.now(timezone.utc)` raises `TypeError`, aborting the whole
run.  First conjunct: the faithful predicate raises at the failing input.
Second conjunct: the claimed recovery does hold for a string both parsers
reject, showing the slip is specific to the fallback path. -/
theorem C6_crash :
    subtask_is_overdue_py ⟨10 * 86400, 0⟩ ⟨false, none, some "01/05/2024"⟩
        = .error .typeError ∧
      subtask_is_overdue_py ⟨10 * 86400, 0⟩ ⟨false, none, some "not-a-date"⟩
        = .ok false :=
  ⟨rfl, rfl⟩

/-- Claim **C7, counterexample.** The claim says the calendar comparison is
against today's calendar date "evaluated in UTC", but the source uses
`date.today()`, the *local* calendar date.  At 2024-02-01 20:00 UTC in a
UTC+14 environment the local date is already 2024-02-02, so a record due
2024-02-01 is overdue for the source while the spec's UTC-evaluated
predicate says it is not. -/
theorem C7_counterexample :
    subtask_is_overdue ⟨daysFromCivil 2024 2 1 * 86400 + 72000, 840⟩
        ⟨false, some "2024-02-01", none⟩ = true ∧
      overdue_spec_utc ⟨daysFromCivil 2024 2 1 * 86400 + 72000, 840⟩
        ⟨false, some "2024-02-01", none⟩ = false := by
  constructor
  · decide
  · decide

/-- Claim **C7, amended.** For every not-completed record whose due value parses
as a calendar date, the overdue predicate returns true iff the date is
strictly before today's calendar date evaluated in the process's *local*
timezone (which is the UTC calendar date only when the local offset keeps
the same day); in particular a due date exactly equal to the local today
yields false. -/
theorem C7_amended (env : Env) (st : SubtaskRec) (s : String) (y m d : Nat)
    (hc : st.completed = false) (ho : st.due_on = some s)
    (hp : parseDateYMD s = some (y, m, d)) :
    (subtask_is_overdue env st = true
        ↔ daysFromCivil y m d < localDays env) ∧
      (daysFromCivil y m d = localDays env →
        subtask_is_overdue env st = false) := by
  have key := subtask_is_overdue_of_parse env st s y m d hc ho hp
  constructor
  · rw [key]
    exact decide_eq_true_iff
  · intro heq
    rw [key, heq]
    simp

/-- Witness for C7: with the local day at 1970-01-10, a record due
1970-01-05 is overdue, and the strictness/equality consequences hold. -/
theorem C7_witness :
    ((subtask_is_overdue ⟨9 * 86400, 0⟩ ⟨false, some "1970-01-05", none⟩ = true
        ↔ daysFromCivil 1970 1 5 < localDays ⟨9 * 86400, 0⟩) ∧
      (daysFromCivil 1970 1 5 = localDays ⟨9 * 86400, 0⟩ →
        subtask_is_overdue ⟨9 * 86400, 0⟩ ⟨false, some "1970-01-05", none⟩
          = false)) ∧
      subtask_is_overdue ⟨9 * 86400, 0⟩ ⟨false, some "1970-01-05", none⟩ = true :=
  ⟨C7_amended ⟨9 * 86400, 0⟩ ⟨false, some "1970-01-05", none⟩
      "1970-01-05" 1970 1 5 rfl rfl (by decide),
    by decide⟩

/-- Claim **C10.** For a not-completed record, a `due_on` that parses as
`YYYY-MM-DD` decides the result by the calendar-date comparison alone:
`due_at` is ignored (replacing it changes nothing), and `due_at` is
consulted - through the `dueAtCheck` leg - exactly when `due_on` is absent
or fails to parse. -/
theorem C10_due_on_precedence (env : Env) (st : SubtaskRec) (s s₂ : String)
    (y m d : Nat) (a : Option String)
    (hc : st.completed = false) (ho : st.due_on = some s)
    (hp : parseDateYMD s = some (y, m, d)) :
    (subtask_is_overdue env { st with due_at := a }
        = subtask_is_overdue env st) ∧
      (subtask_is_overdue env st
        = decide (daysFromCivil y m d < localDays env)) ∧
      (parseDateYMD s₂ = none →
        subtask_is_overdue env { st with due_on := some s₂ }
          = dueAtCheck env { st with due_on := some s₂ }) ∧
      (subtask_is_overdue env { st with due_on := none }
        = dueAtCheck env { st with due_on := none }) := by
  have key := subtask_is_overdue_of_parse env st s y m d hc ho hp
  have key' := subtask_is_overdue_of_parse env { st with due_at := a } s y m d hc ho hp
  refine ⟨key'.trans key.symm, key, ?_, ?_⟩
  · intro hbad
    unfold subtask_is_overdue
    simp only [hc, Bool.false_eq_true, if_false]
    split
    · rfl
    · rw [hbad]
  · unfold subtask_is_overdue
    simp [hc]

/-- Witness for C10: the calendar date 1970-01-05 decides the record
regardless of a contradictory `due_at`, and an unparseable `due_on` falls
through to the `due_at` leg. -/
theorem C10_witness :
    ((subtask_is_overdue ⟨9 * 86400, 0⟩
          ⟨false, some "1970-01-05", some "1999-01-01T00:00:00Z"⟩
        = subtask_is_overdue ⟨9 * 86400, 0⟩ ⟨false, some "1970-01-05", none⟩) ∧
      (subtask_is_overdue ⟨9 * 86400, 0⟩ ⟨false, some "1970-01-05", none⟩
        = decide (daysFromCivil 1970 1 5 < localDays ⟨9 * 86400, 0⟩)) ∧
      (parseDateYMD "junk" = none →
        subtask_is_overdue ⟨9 * 86400, 0⟩ ⟨false, some "junk", none⟩
          = dueAtCheck ⟨9 * 86400, 0⟩ ⟨false, some "junk", none⟩) ∧
      (subtask_is_overdue ⟨9 * 86400, 0⟩ ⟨false, none, none⟩
        = dueAtCheck ⟨9 * 86400, 0⟩ ⟨false, none, none⟩)) := by
  have := C10_due_on_precedence ⟨9 * 86400, 0⟩
    ⟨false, some "1970-01-05", none⟩ "1970-01-05" "junk" 1970 1 5
    (some "1999-01-01T00:00:00Z") rfl rfl (by decide)
  exact this

/-- Claim **C3, counterexample.** The claim says a 429 is *never* surfaced as an
error, with the sleep defaulting to 5 seconds when `Retry-After` is absent
*or unparseable*.  But the source runs `int(...)` on the header value
whenever it is present: a non-numeric `Retry-After` raises `ValueError`,
which surfaces instead of any sleep or retry, even though a success
follows in the script. -/
theorem C3_counterexample :
    api_request [⟨429, some "soon", (0 : Nat)⟩, ⟨200, none, 7⟩]
      = some ([], .error .valueError) := rfl

/-- Claim **C3, amended.** The access layer never surfaces a 429 whose
`Retry-After` header is absent or parses as a nonnegative integer: it
sleeps the parsed duration (5 when the header is absent) and retries the
identical request, with no bound on the number of retries; a sequence of
such 429 responses followed by a non-error response yields exactly one
successful result with one sleep per 429 observed.  (A present but
unparseable - or negative - header value instead raises `ValueError`,
surfacing the 429 as an error.) -/
theorem C3_amended (pre : List (HttpResponse α)) (r : HttpResponse α)
    (rest : List (HttpResponse α))
    (hpre : ∀ x ∈ pre, x.status = 429 ∧ ∃ n, retrySleep x = some n)
    (hr₁ : r.status ≠ 429) (hr₂ : r.status < 400) :
    api_request (pre ++ r :: rest)
      = some (pre.map (fun x => (retrySleep x).getD 0), .ok r.body) := by
  induction pre with
  | nil =>
    simp only [List.nil_append, List.map_nil, api_request, if_neg hr₁,
      if_neg (Nat.not_le.mpr hr₂)]
  | cons x pre ih =>
    obtain ⟨hx, n, hn⟩ := hpre x (List.mem_cons_self x pre)
    have ih' := ih (fun y hy => hpre y (List.mem_cons_of_mem x hy))
    simp [api_request, hx, hn, ih']

/-- Witness for C3: two 429s (one with `Retry-After: 2`, one without)
followed by a 200 give one successful body with sleeps `[2, 5]`. -/
theorem C3_witness :
    api_request [⟨429, some "2", (7 : Nat)⟩, ⟨429, none, 7⟩, ⟨200, none, 7⟩]
      = some ([2, 5], .ok 7) :=
  (C3_amended [⟨429, some "2", 7⟩, ⟨429, none, 7⟩] ⟨200, none, 7⟩ []
    (by
      intro x hx
      simp only [List.mem_cons, List.not_mem_nil, or_false] at hx
      rcases hx with rfl | rfl
      · exact ⟨rfl, 2, by decide⟩
      · exact ⟨rfl, 5, by decide⟩)
    (by decide) (by decide)).trans (by rfl)

/-- A pagination script whose every page but the last carries a next-page
URI, walked to completion: the first request carries the caller's
parameters, every follow-up request hits the recorded URI with no
parameters, and the result is the in-order concatenation of all page
batches. -/
theorem walkPages_complete (front : List (Page α)) (last : Page α)
    (url : String) (params : Option Params)
    (hfront : ∀ p ∈ front, ∃ u, p.next_page = some (some u))
    (hlast : ∀ u, last.next_page ≠ some (some u)) :
    walkPages (front ++ [last]) url params
      = some ((url, params) :: front.map (fun p => (nextUri p, none)),
          ((front ++ [last]).map (fun p => p.data)).flatten) := by
  induction front generalizing url params with
  | nil =>
    cases hl : last.next_page with
    | none => simp [walkPages, hl]
    | some o =>
      cases o with
      | none => simp [walkPages, hl]
      | some u => exact absurd hl (hlast u)
  | cons p front ih =>
    obtain ⟨u, hu⟩ := hfront p (List.mem_cons_self p front)
    have ih' := ih u none (fun q hq => hfront q (List.mem_cons_of_mem p hq))
    simp [walkPages, hu, ih', nextUri]

/-- Claim **C9.** For both paged listing walks (`list_project_tasks` and
`get_task_subtasks`): the caller-supplied query parameters are sent only
with the first page request, no parameters accompany a next-page URL, the
walk continues until no next-page pointer is present, and the returned
value is the full concatenation of all page batches in response order,
materialized before the caller sees anything. -/
theorem C9_pagination (project_gid task_gid : String) (front : List (Page α))
    (last : Page α)
    (hfront : ∀ p ∈ front, ∃ u, p.next_page = some (some u))
    (hlast : ∀ u, last.next_page ≠ some (some u)) :
    list_project_tasks project_gid (front ++ [last])
        = some ((ASANA_BASE ++ "/projects/" ++ project_gid ++ "/tasks",
              some taskListParams)
                :: front.map (fun p => (nextUri p, none)),
            ((front ++ [last]).map (fun p => p.data)).flatten) ∧
      get_task_subtasks task_gid (front ++ [last])
        = some ((ASANA_BASE ++ "/tasks/" ++ task_gid ++ "/subtasks",
              some subtaskListParams)
                :: front.map (fun p => (nextUri p, none)),
            ((front ++ [last]).map (fun p => p.data)).flatten) :=
  ⟨walkPages_complete front last _ _ hfront hlast,
    walkPages_complete front last _ _ hfront hlast⟩

/-- The three-page listing script used by the C9 witness. -/
def pagesW : List (Page Nat) :=
  [⟨[1, 2], some (some "u2")⟩, ⟨[3], some (some "u3")⟩, ⟨[4], some none⟩]

/-- Witness for C9: a three-page listing is walked with parameters only on
the first request and concatenated in order. -/
theorem C9_witness :
    list_project_tasks "p" pagesW
        = some ([("https://app.asana.com/api/1.0/projects/p/tasks",
              some taskListParams), ("u2", none), ("u3", none)],
            [1, 2, 3, 4]) ∧
      get_task_subtasks "t" pagesW
        = some ([("https://app.asana.com/api/1.0/tasks/t/subtasks",
              some subtaskListParams), ("u2", none), ("u3", none)],
            [1, 2, 3, 4]) := by
  have h := C9_pagination (α := Nat) "p" "t"
    [⟨[1, 2], some (some "u2")⟩, ⟨[3], some (some "u3")⟩] ⟨[4], some none⟩
    (by
      intro p hp
      simp only [List.mem_cons, List.not_mem_nil, or_false] at hp
      rcases hp with rfl | rfl
      · exact ⟨"u2", rfl⟩
      · exact ⟨"u3", rfl⟩)
    (by intro u h; cases h)
  exact ⟨h.1.trans (by rfl), h.2.trans (by rfl)⟩

/-- Reducing the `if tag_gid:` truthiness test for a nonempty gid. -/
theorem filter_some_ne_empty (g : String) (hg : g ≠ "") :
    (some g).filter (fun x => x != "") = some g := by
  simp [Option.filter, hg]

/-- The environment of the C1 counterexample: "now" is 2024-02-01 00:00
UTC in a UTC-offset-0 process. -/
def envC1 : Env := ⟨daysFromCivil 2024 2 1 * 86400, 0⟩

/-- The C1 counterexample's task: own due date 2024-01-01, not completed,
and (in `worldC1`) zero subtasks. -/
def taskP1 : TaskRec := ⟨"p1", "P1", false, some "2024-01-01", none⟩

/-- The C1 counterexample's world: one task `taskP1` with no subtasks and
no tags; the `"Overdue"` tag already exists in the workspace. -/
def worldC1 : World :=
  ⟨"ws", [⟨"tg1", "Overdue"⟩], "tgNew", [taskP1],
    fun _ => .ok [], fun _ => .ok []⟩

/-- Claim **C1, counterexample.** The spec's desired state for `taskP1` under
`envC1` is `true` (its own due date is past and it is not completed) and
the observed state is `false`, so the claim demands a mark transition and
mutation count 1.  The engine instead performs the whole run with zero
mutations, zero effects and an unchanged world: `main` skips every task
with zero subtasks (`if not subtasks: continue`) and never consults the
task's own due value. -/
theorem C1_counterexample :
    desiredSpecOverdue envC1 taskP1 [] = true ∧
      dictContains [] "Overdue" = false ∧
      runMain false envC1 worldC1 = .ok ⟨0, [], [], worldC1⟩ :=
  ⟨by decide, rfl, rfl⟩

/-- Claim **C1, amended.** For every task the engine processes, the desired
overdue state is `subs.any (subtask_is_overdue env)` over the task's
subtasks alone - the task's own due value is never consulted (replacing it
changes nothing) - and a task reporting zero subtasks is skipped outright:
no transition, no count, no effect.  For a task with subtasks, a mark
transition (`addTag`) is issued and counted exactly when the subtask-based
desired state is true and the observed tag state is false. -/
theorem C1_amended (env : Env) (w : World) (t : TaskRec) (g : String)
    (subs : List SubtaskRec) (tags : List TagObj) (o' a' : Option String)
    (hg : g ≠ "")
    (hsubs : w.subtasksOf t.gid = .ok subs)
    (htags : w.tagsOf t.gid = .ok tags) :
    (processTask false env "Overdue" (some g) w t).isOk = true ∧
      runChanged (processTask false env "Overdue" (some g) w t)
        = (if subs ≠ [] ∧
              subs.any (subtask_is_overdue env) ≠ dictContains tags "Overdue"
            then 1 else 0) ∧
      (Effect.addTag t.gid g
          ∈ runEffects (processTask false env "Overdue" (some g) w t)
        ↔ subs ≠ [] ∧ subs.any (subtask_is_overdue env) = true
            ∧ dictContains tags "Overdue" = false) ∧
      (subs = [] →
        runEffects (processTask false env "Overdue" (some g) w t) = [] ∧
          runWorldD w (processTask false env "Overdue" (some g) w t) = w) ∧
      processTask false env "Overdue" (some g) w
          { t with due_on := o', due_at := a' }
        = processTask false env "Overdue" (some g) w t := by
  have hfilter := filter_some_ne_empty g hg
  cases subs with
  | nil =>
    have hpt : processTask false env "Overdue" (some g) w t = .ok ⟨0, [], [], w⟩ := by
      simp [processTask, hsubs]
    rw [hpt]
    exact ⟨rfl, by simp [runChanged], by simp [runEffects],
      fun _ => ⟨rfl, rfl⟩, hpt⟩
  | cons s ss =>
    cases hov : (s :: ss).any (subtask_is_overdue env) with
    | true =>
      cases hht : dictContains tags "Overdue" with
      | false =>
        have hpt : processTask false env "Overdue" (some g) w t
            = .ok ⟨1, [.addTag t.gid g, .addComment t.gid overdueCommentText],
                [.markAnnounce t.gid], applyAddTag w t.gid g⟩ := by
          simp [processTask, hsubs, htags, hov, hht, hfilter,
            add_tag_to_task, add_comment]
        rw [hpt]
        exact ⟨rfl, by simp [runChanged, hov, hht],
          by simp [runEffects, hov, hht], by simp, hpt⟩
      | true =>
        have hpt : processTask false env "Overdue" (some g) w t = .ok ⟨0, [], [], w⟩ := by
          simp [processTask, hsubs, htags, hov, hht]
        rw [hpt]
        exact ⟨rfl, by simp [runChanged, hov, hht],
          by simp [runEffects, hht], by simp, hpt⟩
    | false =>
      cases hht : dictContains tags "Overdue" with
      | true =>
        have hpt : processTask false env "Overdue" (some g) w t
            = .ok ⟨1, [.removeTag t.gid (dictGet tags "Overdue"),
                  .addComment t.gid resolvedCommentText],
                [.clearAnnounce t.gid],
                applyRemoveTag w t.gid (dictGet tags "Overdue")⟩ := by
          simp [processTask, hsubs, htags, hov, hht, hfilter,
            remove_tag_from_task, add_comment]
        rw [hpt]
        exact ⟨rfl, by simp [runChanged, hov, hht],
          by simp [runEffects, hov], by simp, hpt⟩
      | false =>
        have hpt : processTask false env "Overdue" (some g) w t = .ok ⟨0, [], [], w⟩ := by
          simp [processTask, hsubs, htags, hov, hht]
        rw [hpt]
        exact ⟨rfl, by simp [runChanged, hov, hht],
          by simp [runEffects, hov], by simp, hpt⟩

/-- The world of the C1/C4 witnesses: one task `"t1"` with a single
overdue subtask and no tags yet. -/
def worldC1A : World :=
  ⟨"ws", [⟨"tg1", "Overdue"⟩], "tgNew", [⟨"t1", "T1", false, none, none⟩],
    fun g => if g == "t1" then .ok [⟨false, some "1970-01-05", none⟩] else .ok [],
    fun _ => .ok []⟩

/-- Witness for C1 (amended): the task with one overdue subtask and no tag
is marked and counted once. -/
theorem C1_witness :
    runChanged (processTask false ⟨10 * 86400, 0⟩ "Overdue" (some "tg1")
        worldC1A ⟨"t1", "T1", false, none, none⟩) = 1 ∧
      Effect.addTag "t1" "tg1"
        ∈ runEffects (processTask false ⟨10 * 86400, 0⟩ "Overdue" (some "tg1")
            worldC1A ⟨"t1", "T1", false, none, none⟩) := by
  have h := C1_amended ⟨10 * 86400, 0⟩ worldC1A ⟨"t1", "T1", false, none, none⟩
    "tg1" [⟨false, some "1970-01-05", none⟩] [] (some "2030-01-01") none
    (by decide) rfl rfl
  exact ⟨h.2.1.trans (by decide), h.2.2.1.mpr (by decide)⟩

/-- A failing per-task read inside the loop aborts the whole fold with
that error: the tasks before it ran, those after it never do. -/
theorem runTasks_abort (dry : Bool) (env : Env) (tn : String)
    (tg : Option String) (ts₁ : List TaskRec) (t : TaskRec)
    (ts₂ : List TaskRec) (w : World) (o₁ : RunOut) (err : PyErr)
    (h1 : runTasks dry env tn tg w ts₁ = .ok o₁)
    (h2 : processTask dry env tn tg o₁.world t = .error err) :
    runTasks dry env tn tg w (ts₁ ++ t :: ts₂) = .error err := by
  induction ts₁ generalizing w o₁ with
  | nil =>
    simp only [runTasks] at h1
    cases h1
    simp only [List.nil_append, runTasks, h2]
  | cons a ts ih =>
    simp only [List.cons_append, runTasks] at h1 ⊢
    cases hp : processTask dry env tn tg w a with
    | error e =>
      simp only [hp] at h1
      exact Except.noConfusion h1
    | ok o =>
      simp only [hp] at h1 ⊢
      cases hr : runTasks dry env tn tg o.world ts with
      | error e =>
        simp only [hr] at h1
        exact Except.noConfusion h1
      | ok o₂ =>
        simp only [hr] at h1
        cases h1
        simp only [List.append_eq]
        rw [ih o.world o₂ hr h2]

/-- Claim **C5.** The Reconciliation Engine is fail-fast: when some task's
processing raises a (non-429, by construction of `PyErr` reaching this
layer) API error, the whole run aborts immediately with that error
reported, regardless of how many tasks follow; no per-task isolation, no
partial success. -/
theorem C5_fail_fast (env : Env) (w : World) (ts₁ : List TaskRec)
    (t : TaskRec) (ts₂ : List TaskRec) (o₁ : RunOut) (err : PyErr)
    (hsplit : (find_or_create_tag false w "Overdue").world.tasks
      = ts₁ ++ t :: ts₂)
    (h1 : runTasks false env "Overdue"
        (find_or_create_tag false w "Overdue").tagGid
        (find_or_create_tag false w "Overdue").world ts₁ = .ok o₁)
    (h2 : processTask false env "Overdue"
        (find_or_create_tag false w "Overdue").tagGid o₁.world t
      = .error err) :
    runMain false env w = .error err := by
  unfold runMain runMainWith
  rw [hsplit, runTasks_abort false env "Overdue" _ ts₁ t ts₂ _ o₁ err h1 h2]

/-- The world of the C5 witness: three tasks; reading the second one's
subtasks fails with HTTP 500. -/
def worldC5 : World :=
  ⟨"ws", [⟨"tg1", "Overdue"⟩], "tgNew",
    [⟨"tA", "A", false, none, none⟩, ⟨"tB", "B", false, none, none⟩,
      ⟨"tC", "C", false, none, none⟩],
    fun g => if g == "tB" then .error (.httpError 500) else .ok [],
    fun _ => .ok []⟩

/-- Witness for C5: the 500 on task `"tB"` aborts the run. -/
theorem C5_witness : runMain false ⟨0, 0⟩ worldC5 = .error (.httpError 500) :=
  C5_fail_fast ⟨0, 0⟩ worldC5 [⟨"tA", "A", false, none, none⟩]
    ⟨"tB", "B", false, none, none⟩ [⟨"tC", "C", false, none, none⟩]
    ⟨0, [], [], worldC5⟩ (.httpError 500) rfl rfl rfl

/-- Under dry-run, one loop iteration produces no transport effect, leaves
the world untouched, counts exactly the tasks requiring a transition, and
announces each intended transition in the log. -/
theorem processTask_dry (env : Env) (tg : Option String) (w : World)
    (t : TaskRec) (subs : List SubtaskRec)
    (hsubs : w.subtasksOf t.gid = .ok subs)
    (htags : subs = [] ∨ ∃ tags, w.tagsOf t.gid = .ok tags) :
    ∃ logs, processTask true env "Overdue" tg w t
        = .ok ⟨if requiresTransition env w t then 1 else 0, [], logs, w⟩
      ∧ logs.countP (fun l => l.isAnnounce)
          = (if requiresTransition env w t then 1 else 0) := by
  cases subs with
  | nil =>
    have hreq : requiresTransition env w t = false := by
      simp [requiresTransition, hsubs]
    exact ⟨[], by simp [processTask, hsubs, hreq], by simp [hreq]⟩
  | cons s ss =>
    obtain ⟨tags, htg⟩ := htags.resolve_left (by simp)
    have hreq : requiresTransition env w t
        = ((s :: ss).any (subtask_is_overdue env)
            != dictContains tags "Overdue") := by
      simp [requiresTransition, hsubs, htg]
    cases hov : (s :: ss).any (subtask_is_overdue env) with
    | true =>
      cases hht : dictContains tags "Overdue" with
      | false =>
        cases hfil : Option.filter (fun g => g != "") tg with
        | some g =>
          refine ⟨[.markAnnounce t.gid, .dryAddTag t.gid g, .dryAddComment t.gid],
            ?_, ?_⟩
          · simp [processTask, hsubs, htg, hov, hht, hfil, add_tag_to_task,
              add_comment, hreq]
          · simp [hreq, hov, hht, List.countP_cons, LogEvent.isAnnounce]
        | none =>
          refine ⟨[.markAnnounce t.gid, .dryAddComment t.gid], ?_, ?_⟩
          · simp [processTask, hsubs, htg, hov, hht, hfil, add_comment, hreq]
          · simp [hreq, hov, hht, List.countP_cons, LogEvent.isAnnounce]
      | true =>
        refine ⟨[], ?_, ?_⟩
        · simp [processTask, hsubs, htg, hov, hht, hreq]
        · simp [hreq, hov, hht]
    | false =>
      cases hht : dictContains tags "Overdue" with
      | true =>
        cases hfil : Option.filter (fun g => g != "") tg with
        | some g =>
          refine ⟨[.clearAnnounce t.gid,
            .dryRemoveTag t.gid (dictGet tags "Overdue"), .dryAddComment t.gid],
            ?_, ?_⟩
          · simp [processTask, hsubs, htg, hov, hht, hfil,
              remove_tag_from_task, add_comment, hreq]
          · simp [hreq, hov, hht, List.countP_cons, LogEvent.isAnnounce]
        | none =>
          refine ⟨[.clearAnnounce t.gid, .dryAddComment t.gid], ?_, ?_⟩
          · simp [processTask, hsubs, htg, hov, hht, hfil, add_comment, hreq]
          · simp [hreq, hov, hht, List.countP_cons, LogEvent.isAnnounce]
      | false =>
        refine ⟨[], ?_, ?_⟩
        · simp [processTask, hsubs, htg, hov, hht, hreq]
        · simp [hreq, hov, hht]

/-- Under dry-run the whole loop is effect-free and world-preserving, its
count being the number of tasks requiring a transition. -/
theorem runTasks_dry (env : Env) (tg : Option String) (w : World)
    (ts : List TaskRec)
    (hfetch : ∀ t ∈ ts, ∃ subs, w.subtasksOf t.gid = .ok subs ∧
        (subs = [] ∨ ∃ tags, w.tagsOf t.gid = .ok tags)) :
    ∃ logs, runTasks true env "Overdue" tg w ts
        = .ok ⟨ts.countP (fun t => requiresTransition env w t), [], logs, w⟩
      ∧ logs.countP (fun l => l.isAnnounce)
          = ts.countP (fun t => requiresTransition env w t) := by
  induction ts with
  | nil => exact ⟨[], by simp [runTasks], by simp⟩
  | cons t ts ih =>
    obtain ⟨subs, hsubs, htags⟩ := hfetch t (List.mem_cons_self t ts)
    obtain ⟨l₁, hs, hcl₁⟩ := processTask_dry env tg w t subs hsubs htags
    obtain ⟨l₂, hr, hcl₂⟩ :=
      ih (fun u hu => hfetch u (List.mem_cons_of_mem t hu))
    refine ⟨l₁ ++ l₂, ?_, ?_⟩
    · simp only [runTasks, hs, hr, List.nil_append]
      rw [List.countP_cons, Nat.add_comm]
    · rw [List.countP_append, hcl₁, hcl₂, List.countP_cons, Nat.add_comm]

/-- Claim **C4.** With dry-run enabled, no mutating call (tag creation, tag add,
tag remove, comment post) reaches the transport layer and the external
state is untouched, yet the engine still counts every task requiring a
transition in the mutation counter, logs each intended transition, and the
run completes without error (given that the underlying reads succeed). -/
theorem C4_dry_run (env : Env) (w : World)
    (hfetch : ∀ t ∈ w.tasks, ∃ subs, w.subtasksOf t.gid = .ok subs ∧
        (subs = [] ∨ ∃ tags, w.tagsOf t.gid = .ok tags)) :
    (runMain true env w).isOk = true ∧
      runEffects (runMain true env w) = [] ∧
      runWorldD w (runMain true env w) = w ∧
      runChanged (runMain true env w)
        = w.tasks.countP (fun t => requiresTransition env w t) ∧
      (runLogs (runMain true env w)).countP (fun l => l.isAnnounce)
        = w.tasks.countP (fun t => requiresTransition env w t) := by
  cases hf : w.wsTags.find? (fun x => x.name == "Overdue") with
  | some tg0 =>
    obtain ⟨logs, hrun, hcnt⟩ :=
      runTasks_dry env (some tg0.gid) w w.tasks hfetch
    have hm : runMain true env w
        = .ok ⟨w.tasks.countP (fun t => requiresTransition env w t), [],
            logs, w⟩ := by
      unfold runMain runMainWith
      simp only [find_or_create_tag, hf, hrun]
      simp
    rw [hm]
    exact ⟨rfl, rfl, rfl, rfl, by simpa [runLogs] using hcnt⟩
  | none =>
    obtain ⟨logs, hrun, hcnt⟩ := runTasks_dry env none w w.tasks hfetch
    have hm : runMain true env w
        = .ok ⟨w.tasks.countP (fun t => requiresTransition env w t), [],
            [.creatingTag "Overdue", .dryCreateTag "Overdue",
              .dryTagNotCreated] ++ logs, w⟩ := by
      unfold runMain runMainWith
      simp [find_or_create_tag, hf, hrun]
    rw [hm]
    refine ⟨rfl, rfl, rfl, rfl, ?_⟩
    simpa [runLogs, List.countP_cons, LogEvent.isAnnounce] using hcnt

/-- Witness for C4: in dry-run over the world with one task requiring a
mark, the run succeeds with no effects, an unchanged world, counter 1, and
one announced transition. -/
theorem C4_witness :
    (runMain true ⟨10 * 86400, 0⟩ worldC1A).isOk = true ∧
      runEffects (runMain true ⟨10 * 86400, 0⟩ worldC1A) = [] ∧
      runWorldD worldC1A (runMain true ⟨10 * 86400, 0⟩ worldC1A) = worldC1A ∧
      runChanged (runMain true ⟨10 * 86400, 0⟩ worldC1A)
        = worldC1A.tasks.countP
            (fun t => requiresTransition ⟨10 * 86400, 0⟩ worldC1A t) ∧
      (runLogs (runMain true ⟨10 * 86400, 0⟩ worldC1A)).countP
          (fun l => l.isAnnounce)
        = worldC1A.tasks.countP
            (fun t => requiresTransition ⟨10 * 86400, 0⟩ worldC1A t) :=
  C4_dry_run ⟨10 * 86400, 0⟩ worldC1A (by
    intro t ht
    simp only [worldC1A, List.mem_singleton] at ht
    subst ht
    exact ⟨[⟨false, some "1970-01-05", none⟩], rfl, .inr ⟨[], rfl⟩⟩)

/-! ### Idempotence (C2)

The engine converges the `"Overdue"`-tag state of every processed task;
once converged, a second run over the unchanged dataset mutates nothing.
The proofs need two sanity properties of the external system, both true of
the real one: tag gids are unique in the workspace registry, and all
`"Overdue"`-named tag objects attached to one task are the same tag
object (one gid), since `main` removes the single gid its name-keyed dict
lookup returns. -/

/-- All tag objects named `"Overdue"` in one task's tag list carry a
single gid. -/
def TagOkAt (tags : List TagObj) : Prop :=
  ∀ a ∈ tags, ∀ b ∈ tags, a.name = "Overdue" → b.name = "Overdue" → a.gid = b.gid

/-- Every readable tag list in the world satisfies `TagOkAt`. -/
def WorldTagOk (w : World) : Prop :=
  ∀ g tags, w.tagsOf g = .ok tags → TagOkAt tags

/-- The task with this gid is observed in its desired state: whenever its
subtask list is nonempty, aggregated overdue-ness coincides with
`"Overdue"`-tag presence. -/
def ConvergedG (env : Env) (w : World) (gid : String) : Prop :=
  ∀ subs, w.subtasksOf gid = .ok subs → subs ≠ [] →
    ∀ tags, w.tagsOf gid = .ok tags →
      subs.any (subtask_is_overdue env) = dictContains tags "Overdue"

/-- The reads the loop performs for this gid succeed. -/
def ReadyG (w : World) (gid : String) : Prop :=
  (∃ subs, w.subtasksOf gid = .ok subs) ∧
    (∀ subs, w.subtasksOf gid = .ok subs → subs ≠ [] →
      ∃ tags, w.tagsOf gid = .ok tags)

theorem dictContains_eq_false_iff (tags : List TagObj) (k : String) :
    dictContains tags k = false ↔ ∀ x ∈ tags, x.name ≠ k := by
  simp [dictContains, List.any_eq_false]

theorem dictContains_eq_true_iff (tags : List TagObj) (k : String) :
    dictContains tags k = true ↔ ∃ x ∈ tags, x.name = k := by
  simp [dictContains, List.any_eq_true]

/-- The gid the name-keyed dict lookup returns belongs to a tag object on
the task that carries the looked-up name. -/
theorem dictGet_spec (tags : List TagObj) (k : String)
    (h : dictContains tags k = true) :
    ∃ e ∈ tags, e.name = k ∧ e.gid = dictGet tags k := by
  obtain ⟨x, hx, hxk⟩ := (dictContains_eq_true_iff tags k).mp h
  have hne : tags.filter (fun y => y.name == k) ≠ [] := by
    intro hnil
    have hmem : x ∈ tags.filter (fun y => y.name == k) :=
      List.mem_filter.mpr ⟨hx, by simp [hxk]⟩
    rw [hnil] at hmem
    cases hmem
  cases hlast : (tags.filter (fun y => y.name == k)).getLast? with
  | none => exact absurd (List.getLast?_eq_none_iff.mp hlast) hne
  | some e =>
    have hmem : e ∈ tags.filter (fun y => y.name == k) :=
      List.mem_of_mem_getLast? (by rw [hlast]; rfl)
    obtain ⟨hmem', hname⟩ := List.mem_filter.mp hmem
    exact ⟨e, hmem', by simpa using hname, by simp [dictGet, hlast]⟩

/-- With gid-unique registries, the gid-keyed lookup of a member finds
exactly that member. -/
theorem find_gid_of_mem (l : List TagObj) (x : TagObj) (hmem : x ∈ l)
    (hnodup : (l.map (fun t => t.gid)).Nodup) :
    l.find? (fun t => t.gid == x.gid) = some x := by
  induction l with
  | nil => cases hmem
  | cons a l ih =>
    rw [List.map_cons, List.nodup_cons] at hnodup
    rcases List.mem_cons.mp hmem with rfl | hmem'
    · exact List.find?_cons_of_pos l (by simp)
    · have hne : ¬(a.gid == x.gid) = true := by
        intro hbeq
        have heq : a.gid = x.gid := by simpa using hbeq
        exact hnodup.1 (heq ▸ List.mem_map_of_mem (fun t => t.gid) hmem')
      rw [List.find?_cons_of_neg l hne]
      exact ih hmem' hnodup.2

/-- The lookup `tagNameLookup` depends only on the workspace's tag registry. -/
theorem tagNameLookup_congr (w w' : World) (h : w'.wsTags = w.wsTags)
    (g : String) : tagNameLookup w' g = tagNameLookup w g := by
  unfold tagNameLookup
  rw [h]

theorem applyAddTag_tagsOf_self (w : World) (taskGid tagGid : String) :
    (applyAddTag w taskGid tagGid).tagsOf taskGid
      = (w.tagsOf taskGid).map
          (fun l => l ++ [⟨tagGid, tagNameLookup w tagGid⟩]) := by
  simp [applyAddTag]

theorem applyAddTag_tagsOf_other (w : World) (taskGid tagGid gid : String)
    (hne : gid ≠ taskGid) :
    (applyAddTag w taskGid tagGid).tagsOf gid = w.tagsOf gid := by
  simp [applyAddTag, hne]

theorem applyRemoveTag_tagsOf_self (w : World) (taskGid tagGid : String) :
    (applyRemoveTag w taskGid tagGid).tagsOf taskGid
      = (w.tagsOf taskGid).map
          (fun l => l.filter (fun t => !(t.gid == tagGid))) := by
  simp [applyRemoveTag]

theorem applyRemoveTag_tagsOf_other (w : World) (taskGid tagGid gid : String)
    (hne : gid ≠ taskGid) :
    (applyRemoveTag w taskGid tagGid).tagsOf gid = w.tagsOf gid := by
  simp [applyRemoveTag, hne]

/-- Convergence transfers along a step that only rewrote one gid's tags
and converged that gid. -/
theorem convergedG_of_step (env : Env) (w w' : World) (tgid : String)
    (hsub : w'.subtasksOf = w.subtasksOf)
    (hother : ∀ gid, gid ≠ tgid → w'.tagsOf gid = w.tagsOf gid)
    (hself : ConvergedG env w' tgid) :
    ∀ gid, ConvergedG env w gid → ConvergedG env w' gid := by
  intro gid hc
  by_cases hgid : gid = tgid
  · subst hgid
    exact hself
  · intro subs hs hne tags ht
    rw [hsub] at hs
    rw [hother gid hgid] at ht
    exact hc subs hs hne tags ht

/-- Readability transfers along such a step too. -/
theorem readyG_of_step (w w' : World) (tgid : String)
    (hsub : w'.subtasksOf = w.subtasksOf)
    (hother : ∀ gid, gid ≠ tgid → w'.tagsOf gid = w.tagsOf gid)
    (hself : ReadyG w' tgid) :
    ∀ gid, ReadyG w gid → ReadyG w' gid := by
  intro gid hr
  by_cases hgid : gid = tgid
  · subst hgid
    exact hself
  · obtain ⟨⟨subs, hs⟩, hget⟩ := hr
    refine ⟨⟨subs, by rw [hsub]; exact hs⟩, ?_⟩
    intro subs' hs' hne'
    rw [hsub] at hs'
    obtain ⟨tags, ht⟩ := hget subs' hs' hne'
    exact ⟨tags, by rw [hother gid hgid]; exact ht⟩

/-- One non-dry loop iteration (with a truthy tag gid named `"Overdue"` in
the registry) converges its task's observed tag state and leaves every
other task's reads untouched. -/
theorem processTask_step (env : Env) (g : String) (w : World) (t : TaskRec)
    (o : RunOut) (hg : g ≠ "")
    (hname : tagNameLookup w g = "Overdue") (htok : WorldTagOk w)
    (h : processTask false env "Overdue" (some g) w t = .ok o) :
    WorldTagOk o.world ∧ ConvergedG env o.world t.gid ∧ ReadyG o.world t.gid ∧
      (∀ gid, gid ≠ t.gid → o.world.tagsOf gid = w.tagsOf gid) ∧
      o.world.subtasksOf = w.subtasksOf ∧ o.world.wsTags = w.wsTags ∧
      o.world.tasks = w.tasks := by
  have hfilter := filter_some_ne_empty g hg
  cases hsubs : w.subtasksOf t.gid with
  | error e => simp [processTask, hsubs] at h
  | ok subs =>
    cases subs with
    | nil =>
      have hpt : processTask false env "Overdue" (some g) w t
          = .ok ⟨0, [], [], w⟩ := by simp [processTask, hsubs]
      rw [hpt] at h
      cases h
      refine ⟨htok, ?_, ?_, fun _ _ => rfl, rfl, rfl, rfl⟩
      · intro subs' hs' hne' tags _
        rw [hsubs] at hs'
        cases hs'
        exact absurd rfl hne'
      · refine ⟨⟨[], hsubs⟩, ?_⟩
        intro subs' hs' hne'
        rw [hsubs] at hs'
        cases hs'
        exact absurd rfl hne'
    | cons s ss =>
      cases htags : w.tagsOf t.gid with
      | error e => simp [processTask, hsubs, htags] at h
      | ok tags =>
        have hTagOk : TagOkAt tags := htok t.gid tags htags
        cases hov : (s :: ss).any (subtask_is_overdue env) with
        | true =>
          cases hht : dictContains tags "Overdue" with
          | false =>
            -- mark transition
            have hpt : processTask false env "Overdue" (some g) w t
                = .ok ⟨1, [.addTag t.gid g,
                      .addComment t.gid overdueCommentText],
                    [.markAnnounce t.gid], applyAddTag w t.gid g⟩ := by
              simp [processTask, hsubs, htags, hov, hht, hfilter,
                add_tag_to_task, add_comment]
            rw [hpt] at h
            cases h
            have hselftags : (applyAddTag w t.gid g).tagsOf t.gid
                = .ok (tags ++ [⟨g, "Overdue"⟩]) := by
              rw [applyAddTag_tagsOf_self, htags, hname]
              rfl
            have hnoov : ∀ x ∈ tags, x.name ≠ "Overdue" :=
              (dictContains_eq_false_iff tags "Overdue").mp hht
            refine ⟨?_, ?_, ?_, ?_, rfl, rfl, rfl⟩
            · intro g' tags' hget
              by_cases hgid : g' = t.gid
              · subst hgid
                rw [hselftags] at hget
                cases hget
                intro a ha b hb hak hbk
                rcases List.mem_append.mp ha with ha' | ha'
                · exact absurd hak (hnoov a ha')
                · rcases List.mem_append.mp hb with hb' | hb'
                  · exact absurd hbk (hnoov b hb')
                  · rw [List.mem_singleton.mp ha', List.mem_singleton.mp hb']
              · rw [applyAddTag_tagsOf_other w t.gid g g' hgid] at hget
                exact htok g' tags' hget
            · intro subs' hs' _ tags' ht'
              rw [show (applyAddTag w t.gid g).subtasksOf = w.subtasksOf from rfl,
                hsubs] at hs'
              cases hs'
              rw [hselftags] at ht'
              cases ht'
              rw [hov]
              simp [dictContains, List.any_append]
            · refine ⟨⟨s :: ss, hsubs⟩, ?_⟩
              intro subs' _ _
              exact ⟨tags ++ [⟨g, "Overdue"⟩], hselftags⟩
            · exact fun gid hgid => applyAddTag_tagsOf_other w t.gid g gid hgid
          | true =>
            have hpt : processTask false env "Overdue" (some g) w t
                = .ok ⟨0, [], [], w⟩ := by
              simp [processTask, hsubs, htags, hov, hht]
            rw [hpt] at h
            cases h
            refine ⟨htok, ?_, ?_, fun _ _ => rfl, rfl, rfl, rfl⟩
            · intro subs' hs' _ tags' ht'
              rw [hsubs] at hs'
              cases hs'
              rw [htags] at ht'
              cases ht'
              rw [hov, hht]
            · exact ⟨⟨s :: ss, hsubs⟩, fun _ _ _ => ⟨tags, htags⟩⟩
        | false =>
          cases hht : dictContains tags "Overdue" with
          | true =>
            -- clear transition
            have hpt : processTask false env "Overdue" (some g) w t
                = .ok ⟨1, [.removeTag t.gid (dictGet tags "Overdue"),
                      .addComment t.gid resolvedCommentText],
                    [.clearAnnounce t.gid],
                    applyRemoveTag w t.gid (dictGet tags "Overdue")⟩ := by
              simp [processTask, hsubs, htags, hov, hht, hfilter,
                remove_tag_from_task, add_comment]
            rw [hpt] at h
            cases h
            obtain ⟨e₀, he₀, he₀k, he₀g⟩ := dictGet_spec tags "Overdue" hht
            have hselftags :
                (applyRemoveTag w t.gid (dictGet tags "Overdue")).tagsOf t.gid
                  = .ok (tags.filter
                      (fun x => !(x.gid == dictGet tags "Overdue"))) := by
              rw [applyRemoveTag_tagsOf_self, htags]
              rfl
            have hcleared : dictContains
                (tags.filter (fun x => !(x.gid == dictGet tags "Overdue")))
                "Overdue" = false := by
              rw [dictContains_eq_false_iff]
              intro x hx hxk
              obtain ⟨hx', hxg⟩ := List.mem_filter.mp hx
              have : x.gid = dictGet tags "Overdue" := by
                rw [← he₀g]
                exact hTagOk x hx' e₀ he₀ hxk he₀k
              simp [this] at hxg
            refine ⟨?_, ?_, ?_, ?_, rfl, rfl, rfl⟩
            · intro g' tags' hget
              by_cases hgid : g' = t.gid
              · subst hgid
                rw [hselftags] at hget
                cases hget
                intro a ha b hb hak hbk
                exact hTagOk a (List.mem_filter.mp ha).1
                  b (List.mem_filter.mp hb).1 hak hbk
              · rw [applyRemoveTag_tagsOf_other w t.gid
                  (dictGet tags "Overdue") g' hgid] at hget
                exact htok g' tags' hget
            · intro subs' hs' _ tags' ht'
              rw [show (applyRemoveTag w t.gid
                  (dictGet tags "Overdue")).subtasksOf = w.subtasksOf from rfl,
                hsubs] at hs'
              cases hs'
              rw [hselftags] at ht'
              cases ht'
              rw [hov, hcleared]
            · refine ⟨⟨s :: ss, hsubs⟩, ?_⟩
              intro subs' _ _
              exact ⟨_, hselftags⟩
            · exact fun gid hgid =>
                applyRemoveTag_tagsOf_other w t.gid (dictGet tags "Overdue")
                  gid hgid
          | false =>
            have hpt : processTask false env "Overdue" (some g) w t
                = .ok ⟨0, [], [], w⟩ := by
              simp [processTask, hsubs, htags, hov, hht]
            rw [hpt] at h
            cases h
            refine ⟨htok, ?_, ?_, fun _ _ => rfl, rfl, rfl, rfl⟩
            · intro subs' hs' _ tags' ht'
              rw [hsubs] at hs'
              cases hs'
              rw [htags] at ht'
              cases ht'
              rw [hov, hht]
            · exact ⟨⟨s :: ss, hsubs⟩, fun _ _ _ => ⟨tags, htags⟩⟩

/-- The whole non-dry loop converges every listed task and preserves the
registry, the listing and the subtask reads. -/
theorem runTasks_converges (env : Env) (g : String) (w : World)
    (ts : List TaskRec) (o : RunOut) (hg : g ≠ "")
    (hname : tagNameLookup w g = "Overdue") (htok : WorldTagOk w)
    (h : runTasks false env "Overdue" (some g) w ts = .ok o) :
    WorldTagOk o.world ∧
      (∀ t ∈ ts, ConvergedG env o.world t.gid ∧ ReadyG o.world t.gid) ∧
      (∀ gid, ConvergedG env w gid → ConvergedG env o.world gid) ∧
      (∀ gid, ReadyG w gid → ReadyG o.world gid) ∧
      o.world.subtasksOf = w.subtasksOf ∧ o.world.wsTags = w.wsTags ∧
      o.world.tasks = w.tasks := by
  induction ts generalizing w o with
  | nil =>
    simp only [runTasks] at h
    cases h
    exact ⟨htok, by simp, fun _ hc => hc, fun _ hr => hr, rfl, rfl, rfl⟩
  | cons t ts ih =>
    simp only [runTasks] at h
    cases hp : processTask false env "Overdue" (some g) w t with
    | error e =>
      rw [hp] at h
      exact Except.noConfusion h
    | ok o₁ =>
      simp only [hp] at h
      cases hr : runTasks false env "Overdue" (some g) o₁.world ts with
      | error e =>
        rw [hr] at h
        exact Except.noConfusion h
      | ok o₂ =>
        simp only [hr] at h
        cases h
        obtain ⟨htok₁, hconv₁, hready₁, hother₁, hsub₁, hws₁, htasks₁⟩ :=
          processTask_step env g w t o₁ hg hname htok hp
        have hname₁ : tagNameLookup o₁.world g = "Overdue" :=
          (tagNameLookup_congr w o₁.world hws₁ g).trans hname
        obtain ⟨htok₂, hmem₂, hmonoC₂, hmonoR₂, hsub₂, hws₂, htasks₂⟩ :=
          ih o₁.world o₂ hname₁ htok₁ hr
        have hmonoC₁ := convergedG_of_step env w o₁.world t.gid hsub₁
          hother₁ hconv₁
        have hmonoR₁ := readyG_of_step w o₁.world t.gid hsub₁ hother₁ hready₁
        refine ⟨htok₂, ?_, ?_, ?_, hsub₂.trans hsub₁, hws₂.trans hws₁,
          htasks₂.trans htasks₁⟩
        · intro u hu
          rcases List.mem_cons.mp hu with rfl | hu'
          · exact ⟨hmonoC₂ u.gid hconv₁, hmonoR₂ u.gid hready₁⟩
          · exact hmem₂ u hu'
        · exact fun gid hc => hmonoC₂ gid (hmonoC₁ gid hc)
        · exact fun gid hr' => hmonoR₂ gid (hmonoR₁ gid hr')

/-- Over a world in which every listed task is already converged and
readable, the loop does nothing: count 0, no effect, no log, same
world - whatever the tag gid handed in. -/
theorem runTasks_noop (env : Env) (tg : Option String) (w : World)
    (ts : List TaskRec)
    (h : ∀ t ∈ ts, ConvergedG env w t.gid ∧ ReadyG w t.gid) :
    runTasks false env "Overdue" tg w ts = .ok ⟨0, [], [], w⟩ := by
  induction ts with
  | nil => simp [runTasks]
  | cons t ts ih =>
    obtain ⟨hc, ⟨⟨subs, hsubs⟩, hready⟩⟩ := h t (List.mem_cons_self t ts)
    have hpt : processTask false env "Overdue" tg w t = .ok ⟨0, [], [], w⟩ := by
      cases subs with
      | nil => simp [processTask, hsubs]
      | cons s ss =>
        obtain ⟨tags, htags⟩ := hready (s :: ss) hsubs (by simp)
        have heq := hc (s :: ss) hsubs (by simp) tags htags
        simp [processTask, hsubs, htags, heq, Bool.and_not_self,
          Bool.not_and_self]
    have hts := ih (fun u hu => h u (List.mem_cons_of_mem t hu))
    simp [runTasks, hpt, hts]

/-- Computation rule for `runMainWith` in non-dry mode once the loop's
outcome is known. -/
theorem runMainWith_false_eq (env : Env) (f : FcOut) (o' : RunOut)
    (hrun : runTasks false env "Overdue" f.tagGid f.world f.world.tasks
      = .ok o') :
    runMainWith false env f
      = .ok ⟨o'.changed, f.effects ++ o'.effects, f.logs ++ o'.logs,
          o'.world⟩ := by
  simp [runMainWith, hrun]

/-- After one successful non-dry run from a well-named world, the
registry and listing survive and a second loop - with any tag gid - does
nothing. -/
theorem second_run_noop (env : Env) (g : String) (w₀ : World) (o' : RunOut)
    (tg₂ : Option String) (hg : g ≠ "")
    (hname : tagNameLookup w₀ g = "Overdue") (htok : WorldTagOk w₀)
    (hrun : runTasks false env "Overdue" (some g) w₀ w₀.tasks = .ok o') :
    o'.world.wsTags = w₀.wsTags ∧ o'.world.tasks = w₀.tasks ∧
      runTasks false env "Overdue" tg₂ o'.world o'.world.tasks
        = .ok ⟨0, [], [], o'.world⟩ := by
  obtain ⟨htok', hts, _, _, hsub, hws, htasks⟩ :=
    runTasks_converges env g w₀ w₀.tasks o' hg hname htok hrun
  refine ⟨hws, htasks, ?_⟩
  rw [htasks]
  exact runTasks_noop env tg₂ o'.world w₀.tasks hts

/-- Claim **C2.** The reconciliation step is idempotent: a task already observed
in its desired state triggers no mutating call (that is the content of
`runTasks_noop`), and hence a second full run over the dataset the first
run converged performs zero mutations - count 0, no transport effect, no
log, unchanged world.  The hypotheses say the workspace registry has
unique, nonempty gids, a fresh gid is really fresh, and no task carries
two distinct same-named `"Overdue"` tag objects - all invariants of the
external system. -/
theorem C2_idempotent (env : Env) (w : World) (o : RunOut)
    (hnodup : (w.wsTags.map (fun x => x.gid)).Nodup)
    (hge : ∀ x ∈ w.wsTags, x.gid ≠ "")
    (hfresh₁ : w.freshTagGid ≠ "")
    (hfresh₂ : w.freshTagGid ∉ w.wsTags.map (fun x => x.gid))
    (htok : WorldTagOk w)
    (h : runMain false env w = .ok o) :
    runMain false env o.world = .ok ⟨0, [], [], o.world⟩ := by
  cases hf : w.wsTags.find? (fun x => x.name == "Overdue") with
  | some tagObj =>
    have hfc : find_or_create_tag false w "Overdue"
        = ⟨some tagObj.gid, [], [], w⟩ := by
      simp [find_or_create_tag, hf]
    rw [runMain, hfc] at h
    have hmem := List.mem_of_find?_eq_some hf
    have hnameEq : tagObj.name = "Overdue" := by
      simpa using List.find?_some hf
    have hg : tagObj.gid ≠ "" := hge tagObj hmem
    have hname : tagNameLookup w tagObj.gid = "Overdue" := by
      simp [tagNameLookup, find_gid_of_mem w.wsTags tagObj hmem hnodup,
        hnameEq]
    cases hrun : runTasks false env "Overdue" (some tagObj.gid) w w.tasks with
    | error e => simp [runMainWith, hrun] at h
    | ok o' =>
      rw [runMainWith_false_eq env ⟨some tagObj.gid, [], [], w⟩ o' hrun] at h
      cases h
      show runMain false env o'.world = .ok ⟨0, [], [], o'.world⟩
      obtain ⟨hws, htasks, hnoop⟩ := second_run_noop env tagObj.gid w o'
        (some tagObj.gid) hg hname htok hrun
      have hf₂ : o'.world.wsTags.find? (fun x => x.name == "Overdue")
          = some tagObj := by
        rw [hws]
        exact hf
      have hfc₂ : find_or_create_tag false o'.world "Overdue"
          = ⟨some tagObj.gid, [], [], o'.world⟩ := by
        simp [find_or_create_tag, hf₂]
      rw [runMain, hfc₂,
        runMainWith_false_eq env ⟨some tagObj.gid, [], [], o'.world⟩
          ⟨0, [], [], o'.world⟩ hnoop]
      rfl
  | none =>
    have hfc : find_or_create_tag false w "Overdue"
        = ⟨some w.freshTagGid, [.createTag "Overdue" w.workspaceGid],
            [.creatingTag "Overdue"],
            { w with wsTags := w.wsTags ++ [⟨w.freshTagGid, "Overdue"⟩] }⟩ := by
      simp [find_or_create_tag, hf]
    rw [runMain, hfc] at h
    have hnone : w.wsTags.find? (fun x => x.gid == w.freshTagGid) = none := by
      rw [List.find?_eq_none]
      intro x hx hbeq
      exact hfresh₂ ((by simpa using hbeq : x.gid = w.freshTagGid)
        ▸ List.mem_map_of_mem (fun t => t.gid) hx)
    have hname : tagNameLookup
        { w with wsTags := w.wsTags ++ [⟨w.freshTagGid, "Overdue"⟩] }
        w.freshTagGid = "Overdue" := by
      simp [tagNameLookup, List.find?_append, hnone]
    have htok₀ : WorldTagOk
        { w with wsTags := w.wsTags ++ [⟨w.freshTagGid, "Overdue"⟩] } :=
      fun g tags hget => htok g tags hget
    cases hrun : runTasks false env "Overdue" (some w.freshTagGid)
        { w with wsTags := w.wsTags ++ [⟨w.freshTagGid, "Overdue"⟩] }
        w.tasks with
    | error e => simp [runMainWith, hrun] at h
    | ok o' =>
      rw [runMainWith_false_eq env
        ⟨some w.freshTagGid, [.createTag "Overdue" w.workspaceGid],
          [.creatingTag "Overdue"],
          { w with wsTags := w.wsTags ++ [⟨w.freshTagGid, "Overdue"⟩] }⟩
        o' hrun] at h
      cases h
      show runMain false env o'.world = .ok ⟨0, [], [], o'.world⟩
      obtain ⟨hws, htasks, hnoop⟩ := second_run_noop env w.freshTagGid
        { w with wsTags := w.wsTags ++ [⟨w.freshTagGid, "Overdue"⟩] } o'
        (some w.freshTagGid) hfresh₁ hname htok₀ hrun
      have hws' : o'.world.wsTags
          = w.wsTags ++ [(⟨w.freshTagGid, "Overdue"⟩ : TagObj)] := hws
      have hf₂ : o'.world.wsTags.find? (fun x => x.name == "Overdue")
          = some (⟨w.freshTagGid, "Overdue"⟩ : TagObj) := by
        rw [hws', List.find?_append, hf]
        simp
      have hfc₂ : find_or_create_tag false o'.world "Overdue"
          = ⟨some w.freshTagGid, [], [], o'.world⟩ := by
        simp [find_or_create_tag, hf₂]
      rw [runMain, hfc₂,
        runMainWith_false_eq env ⟨some w.freshTagGid, [], [], o'.world⟩
          ⟨0, [], [], o'.world⟩ hnoop]
      rfl

/-- The outcome of the first (mutating) run of the C2 witness. -/
def run1out : RunOut :=
  match runMain false ⟨10 * 86400, 0⟩ worldC1A with
  | .ok o => o
  | .error _ => ⟨0, [], [], worldC1A⟩

/-- Witness for C2: after the run that marks `"t1"`, a second run over the
resulting world performs zero mutations. -/
theorem C2_witness :
    runMain false ⟨10 * 86400, 0⟩ run1out.world
      = .ok ⟨0, [], [], run1out.world⟩ :=
  C2_idempotent ⟨10 * 86400, 0⟩ worldC1A run1out (by decide) (by decide)
    (by decide) (by decide)
    (fun g tags hget => by
      injection hget with h2
      subst h2
      exact fun a ha => absurd ha (List.not_mem_nil a))
    (by rfl)

end AsanaOverdue
